import Mathlib

/-!
Shallow embedding of the CDC probe's core pipeline
(`src/probe/handlers/changes_intake.py`, `src/probe/handlers/changes_processor.py`,
`src/probe/database/database_manager.py`, `src/probe/sync/cloud_sync_client.py`,
`src/probe/sync/local_buffer.py`), together with theorems settling the spec claims.

Conventions:
* A `CHANGES_LOG` row / in-memory `Change` is the six-field record of
  `models/change.py`; the `PROCESSED` smallint column (0/1) is a `Bool`.
* A SQL `SELECT` with no `ORDER BY` clause returns its matching rows in an
  order the SQL standard leaves unspecified.  Such fetches are therefore
  modelled by a row-list parameter constrained to be a permutation of the
  rows matching the `WHERE` clause (predicate `fetchedRows` below); a
  `SELECT` with an `ORDER BY` is additionally constrained to be sorted on
  the ordered column.
* Timestamps are abstracted to `Nat`, both in `CHANGES_LOG` rows and for
  the ISO-8601 text of `datetime.utcnow().isoformat()` kept in the
  local-buffer store: lexicographic order on those fixed-format strings
  coincides with chronological order.
-/

namespace Apis

/-- From `models/change.py`: the `Change` dataclass (field spelling follows the
source, including `occured_at`).  Also the shape of a `CHANGES_LOG` row. -/
structure Change where
  log_id : Nat
  pk_val : Int
  table_id : Nat
  mutation : String
  occured_at : Nat
  processed : Bool
deriving DecidableEq, Repr

/-- Predicate `WHERE LOG_ID >= pos AND PROCESSED = 0` — the row filter of the intake
query in `ChangesIntake._process_changes` (`changes_intake.py:74`). -/
def matchesIntakeQuery (pos : Nat) (r : Change) : Bool :=
  decide (pos ≤ r.log_id) && !r.processed

/-- A fetched result set for the intake query.  The `SELECT` at
`changes_intake.py:74` carries no `ORDER BY`, so the database may hand back
the matching rows in any order: `rows` is any permutation of the rows of
`table` matching the `WHERE` clause. -/
def fetchedRows (table : List Change) (pos : Nat) (rows : List Change) : Prop :=
  rows.Perm (table.filter (matchesIntakeQuery pos))

instance (table : List Change) (pos : Nat) (rows : List Change) :
    Decidable (fetchedRows table pos rows) :=
  decidable_of_iff (rows.isPerm (table.filter (matchesIntakeQuery pos)))
    List.isPerm_iff

/-- The intake thread's mutable state: its cursor `self.pos` and the shared
output queue (`self.output`), the latter modelled by the list of `Change`s
pushed so far, oldest first. -/
structure IntakeState where
  pos : Nat
  output : List Change
deriving DecidableEq, Repr

/-- Method `ChangesIntake._process_changes` (`changes_intake.py:70-83`): push a
`Change` for every fetched row onto the queue in fetch order, then advance
the cursor by the number of fetched rows (`self.pos += len(rows)`). -/
def process_changes (s : IntakeState) (rows : List Change) : IntakeState :=
  { pos := s.pos + rows.length, output := s.output ++ rows }

/-- Largest `log_id` among a fetched row set (0 when empty); the
"max(log_id seen)" of the spec sentence. -/
def maxLogId (rows : List Change) : Nat :=
  rows.foldl (fun m r => max m r.log_id) 0

/-! ### DatabaseManager (`src/probe/database/database_manager.py`) -/

/-- Python `dict` assignment `m[k] = v` on a dict modelled as an association
list in insertion order: overwrite in place when `k` is present, append
otherwise. -/
def dictInsert [BEq α] (m : List (α × β)) (k : α) (v : β) : List (α × β) :=
  if m.any (fun p => p.1 == k) then
    m.map (fun p => if p.1 == k then (k, v) else p)
  else m ++ [(k, v)]

/-- One step of the loop body of `DatabaseManager.create_table_triggers`
(`database_manager.py:203-220`): skip `CHANGES_LOG`; otherwise record the
table in both dicts at the current `id`, then attempt the trigger DDL
(`create_table_trigger`), incrementing `id` only when it succeeds.
`fails t = true` models `create_table_trigger` raising for table `t`. -/
def create_table_triggers_go (fails : String → Bool) :
    List (String × String) → Nat → List (String × Nat) → List (Nat × String) →
      List (String × Nat) × List (Nat × String)
  | [], _, table_to_id, id_to_table => (table_to_id, id_to_table)
  | (table, pk_column_name) :: rest, id, table_to_id, id_to_table =>
    if table = "CHANGES_LOG" then
      create_table_triggers_go fails rest id table_to_id id_to_table
    else
      let table_to_id := dictInsert table_to_id table id
      let id_to_table := dictInsert id_to_table id table
      let _ := pk_column_name
      if fails table then
        create_table_triggers_go fails rest id table_to_id id_to_table
      else
        create_table_triggers_go fails rest (id + 1) table_to_id id_to_table

/-- Method `DatabaseManager.create_table_triggers`: build `(table_to_id, id_to_table)`
from the `table_primary_keys` dict (an insertion-ordered association list,
as produced by `get_table_to_primary_key`). -/
def create_table_triggers (fails : String → Bool)
    (table_primary_keys : List (String × String)) :
    List (String × Nat) × List (Nat × String) :=
  create_table_triggers_go fails table_primary_keys 0 [] []

/-- The tables `create_table_triggers` iterates over without skipping: the
keys of its `table_primary_keys` argument other than `CHANGES_LOG`. -/
def eligibleTables (table_primary_keys : List (String × String)) : List String :=
  (table_primary_keys.map Prod.fst).filter fun t => t ≠ "CHANGES_LOG"

/-- Statement `UPDATE CHANGES_LOG SET PROCESSED = 1 WHERE LOG_ID = ?`
(`database_manager.py:47`, `changes_processor.py:78`). -/
def markProcessed (log : List Change) (lid : Nat) : List Change :=
  log.map fun r => if r.log_id = lid then { r with processed := true } else r

/-- Row filter of `SELECT * FROM CHANGES_LOG WHERE PROCESSED = 0`
(`database_manager.py:36`). -/
def matchesLeftoverQuery (r : Change) : Bool := !r.processed

/-- A fetched result set for the leftover-mutations query: the `SELECT` at
`database_manager.py:36` has no `ORDER BY`, so any permutation of the
unprocessed rows is a possible fetch. -/
def fetchedLeftovers (table : List Change) (rows : List Change) : Prop :=
  rows.Perm (table.filter matchesLeftoverQuery)

instance (table : List Change) (rows : List Change) :
    Decidable (fetchedLeftovers table rows) :=
  decidable_of_iff (rows.isPerm (table.filter matchesLeftoverQuery))
    List.isPerm_iff

/-- Method `DatabaseManager.process_leftover_mutations` (`database_manager.py:31-48`):
for each fetched row (in fetch order) re-drive it through
`BaseTableHandler.handle_mutation` and set its `PROCESSED` flag.  Returns
the updated `CHANGES_LOG` together with the trace of `log_id`s driven
through hydration + send, in drive order. -/
def process_leftover_mutations (log : List Change) (rows : List Change) :
    List Change × List Nat :=
  rows.foldl (fun acc c => (markProcessed acc.1 c.log_id, acc.2 ++ [c.log_id]))
    (log, [])

/-- Method `DatabaseManager.delete_processed_mutations` (`database_manager.py:25-29`):
`DELETE FROM CHANGES_LOG WHERE PROCESSED = 1`. -/
def delete_processed_mutations (log : List Change) : List Change :=
  log.filter fun r => !r.processed

/-- Outcome of `DatabaseManager.ensure_clean_slate`: either startup proceeds
or the process terminates with the given exit status. -/
inductive StartupOutcome where
  | proceeds
  | aborts (exitCode : Nat)
deriving DecidableEq, Repr

/-- Method `DatabaseManager.ensure_clean_slate` (`database_manager.py:50-56`):
`SELECT count(*) FROM CHANGES_LOG`; when the count is non-zero the code
calls the builtin `exit()` with no argument, which raises
`SystemExit(None)` — the interpreter maps a `None` code to process exit
status 0. -/
def ensure_clean_slate (log : List Change) : StartupOutcome :=
  if log.length ≠ 0 then .aborts 0 else .proceeds

/-! ### Worker loop (`src/probe/handlers/changes_processor.py`,
`src/probe/handlers/base_table_handler.py`) -/

/-- Observable events of one worker iteration, in program order. -/
inductive WorkerEvent where
  | senderReturned (log_id : Nat) (result : Bool)
  | markedProcessed (log_id : Nat)
  | exceptionLogged (worker_id : Nat)
  | sentinelRequeued
deriving DecidableEq, Repr

/-- Behaviour of `BaseTableHandler.handle_mutation` for one change, beyond
what the maps determine: the sender returned `b` (`CloudSyncClient.send`'s
boolean, which `handle_mutation` ignores), or an exception was raised
during hydration (`cur.execute`/`fetchone`) or inside the send call. -/
inductive HandlerOutcome where
  | returned (senderResult : Bool)
  | raised
deriving DecidableEq, Repr

/-- Result of `ChangesProcessor.process_change` (`changes_processor.py:86-100`)
on one change: the events it emitted and whether it raised.  The two map
lookups (`id_to_table[change.table_id]`, `table_primary_keys[table_name]`)
raise `KeyError` when the key is absent; `handle_mutation` dispatches on
`change.mutation` and calls the sender for `INSERT`/`UPDATE`/`DELETE`
(doing nothing for any other string). -/
def process_change_run (id_to_table : List (Nat × String))
    (table_primary_keys : List (String × String)) (ho : HandlerOutcome)
    (c : Change) : List WorkerEvent × Bool :=
  match List.lookup c.table_id id_to_table with
  | none => ([], true)
  | some table_name =>
    match List.lookup table_name table_primary_keys with
    | none => ([], true)
    | some _pk =>
      if c.mutation = "INSERT" ∨ c.mutation = "UPDATE" ∨ c.mutation = "DELETE" then
        match ho with
        | .returned b => ([.senderReturned c.log_id b], false)
        | .raised => ([], true)
      else ([], false)

/-- One iteration of the `while True` loop of `ChangesProcessor.begin_read`
(`changes_processor.py:70-82`) on a dequeued `Change`: run
`process_change`; if it returned, execute
`UPDATE CHANGES_LOG SET PROCESSED = 1 WHERE LOG_ID = ?` and commit; if it
raised, the `except` block logs the worker id and the loop continues with
the log untouched.  Returns the updated `CHANGES_LOG` and the events. -/
def begin_read_step (id_to_table : List (Nat × String))
    (table_primary_keys : List (String × String)) (ho : HandlerOutcome)
    (worker_id : Nat) (log : List Change) (c : Change) :
    List Change × List WorkerEvent :=
  match process_change_run id_to_table table_primary_keys ho c with
  | (evs, false) => (markProcessed log c.log_id, evs ++ [.markedProcessed c.log_id])
  | (evs, true) => (log, evs ++ [.exceptionLogged worker_id])

/-- Method `ChangesProcessor.begin_read` over the finite sequence of items this
worker dequeues (`none` is the `None` shutdown sentinel, which is re-queued
and breaks the loop). -/
def begin_read_loop (id_to_table : List (Nat × String))
    (table_primary_keys : List (String × String)) (ho : Change → HandlerOutcome)
    (worker_id : Nat) (log : List Change) :
    List (Option Change) → List Change × List WorkerEvent
  | [] => (log, [])
  | none :: _ => (log, [.sentinelRequeued])
  | some c :: rest =>
    let step := begin_read_step id_to_table table_primary_keys (ho c) worker_id log c
    let tail := begin_read_loop id_to_table table_primary_keys ho worker_id step.1 rest
    (tail.1, step.2 ++ tail.2)

/-! ### Sender and local buffer (`src/probe/sync/cloud_sync_client.py`,
`src/probe/sync/local_buffer.py`) -/

/-- Classification of a value occurring in an outbound payload by how the
two `json.dumps` call sites treat it: natively JSON-serializable, a
`Decimal`, a `date`/`datetime`, or anything else. -/
inductive PyVal where
  | native
  | decimal
  | date
  | other
deriving DecidableEq, Repr

/-- A payload, abstracted to the list of values appearing in it. -/
abbrev Payload := List PyVal

/-- Whether `json.dumps(payload, default=CloudSyncClient.json_serialize_fallback)`
(`cloud_sync_client.py:108`) succeeds: the fallback (`:67-85`) converts
`Decimal` to `float` and `date` to an ISO string and raises `TypeError`
for every other non-native type. -/
def dumps_with_fallback_ok (p : Payload) : Bool :=
  p.all fun v => v ≠ .other

/-- Whether the plain `json.dumps(payload)` used by `LocalBuffer.add`
(`local_buffer.py:94`) succeeds: no `default=` fallback is passed, so
`Decimal`, `date` and unknown types all raise `TypeError`. -/
def dumps_plain_ok (p : Payload) : Bool :=
  p.all fun v => v = .native

/-- Outcome of one `urlopen` call: a response status, or an exception
(`HTTPError`/`URLError`/timeout). -/
inductive HttpAttempt where
  | status (code : Nat)
  | exn
deriving DecidableEq, Repr

/-- Method `CloudSyncClient._send_request` (`cloud_sync_client.py:97-128`):
serialize (with fallback) then POST.  Every exception — including the
`TypeError` from `json.dumps` — is caught and yields `false`; a response
counts as success exactly for statuses 200, 201, 202.  Also reports
whether an HTTP request was actually issued (serialization happens before
`urlopen`). -/
def send_request (p : Payload) (att : HttpAttempt) : Bool × Nat :=
  if dumps_with_fallback_ok p then
    match att with
    | .status code => (code = 200 ∨ code = 201 ∨ code = 202, 1)
    | .exn => (false, 1)
  else (false, 0)

/-- Constant `MAX_RETRIES` (`cloud_sync_client.py:37`). -/
def MAX_RETRIES : Nat := 5

/-- The retry loop of `CloudSyncClient._send_with_retry`
(`cloud_sync_client.py:130-158`) over the remaining attempt indices:
returns `(success, attemptsMade, httpRequests)` where `attemptsMade`
counts loop iterations (the code's "Attempt n") and `httpRequests` counts
`urlopen` calls; the loop returns `true` at the first successful attempt. -/
def send_with_retry_list (p : Payload) (att : Nat → HttpAttempt) :
    List Nat → Bool × Nat × Nat
  | [] => (false, 0, 0)
  | i :: rest =>
    let r := send_request p (att i)
    if r.1 then (true, 1, r.2)
    else
      let t := send_with_retry_list p att rest
      (t.1, t.2.1 + 1, t.2.2 + r.2)

/-- Method `CloudSyncClient._send_with_retry`: up to `MAX_RETRIES` attempts. -/
def send_with_retry (p : Payload) (att : Nat → HttpAttempt) : Bool × Nat × Nat :=
  send_with_retry_list p att (List.range MAX_RETRIES)

/-- A row of the local buffer's `pending_changes` table
(`local_buffer.py:47-56`).  `created_at` / `last_retry_at` abstract the
stored ISO-8601 `TEXT` values as numeric instants — lexicographic order on
those fixed-format strings coincides with chronological order. -/
structure Envelope where
  id : Nat
  payload : Payload
  created_at : Nat
  retry_count : Nat
  last_error : Option String
  last_retry_at : Option Nat
deriving DecidableEq, Repr

/-- The buffer store: the `pending_changes` rows in insertion order plus the
next value of the `AUTOINCREMENT` id. -/
structure BufferState where
  next_id : Nat
  rows : List Envelope
deriving DecidableEq, Repr

/-- Method `LocalBuffer.add` (`local_buffer.py:76-97`): serialize the payload with
the plain `json.dumps` — raising `TypeError` (modelled as `.error ()`) for
any non-native value — then durably insert a fresh envelope with
`retry_count = 0` and the given error text, returning its id. -/
def buffer_add (b : BufferState) (p : Payload) (error : Option String)
    (now : Nat) : Except Unit (BufferState × Nat) :=
  if dumps_plain_ok p then
    .ok ({ next_id := b.next_id + 1,
           rows := b.rows ++ [⟨b.next_id, p, now, 0, error, none⟩] }, b.next_id)
  else .error ()

/-- What a call to `CloudSyncClient.send` did: its result (`.error ()` is a
propagated `TypeError`), the buffer afterwards, the number of loop
attempts, and the number of HTTP requests issued. -/
structure SendOutcome where
  result : Except Unit Bool
  buf : BufferState
  attemptsMade : Nat
  httpRequests : Nat
deriving Repr

/-- Method `CloudSyncClient.send` (`cloud_sync_client.py:160-179`): run
`_send_with_retry`; on success return `True`; on exhausted retries call
`buffer.add(payload, error="Max retries exceeded")` and return `False` —
or propagate the `TypeError` that `buffer.add`'s own `json.dumps` raises. -/
def send (b : BufferState) (p : Payload) (att : Nat → HttpAttempt)
    (now : Nat) : SendOutcome :=
  let r := send_with_retry p att
  if r.1 then ⟨.ok true, b, r.2.1, r.2.2⟩
  else
    match buffer_add b p (some "Max retries exceeded") now with
    | .ok (b', _) => ⟨.ok false, b', r.2.1, r.2.2⟩
    | .error _ => ⟨.error (), b, r.2.1, r.2.2⟩

/-- The record shape returned by `LocalBuffer.get_pending`
(`local_buffer.py:121-130`): the five selected columns. -/
structure PendingRecord where
  id : Nat
  payload : Payload
  created_at : Nat
  retry_count : Nat
  last_error : Option String
deriving DecidableEq, Repr

/-- A valid result sequence for
`SELECT ... FROM pending_changes ORDER BY created_at ASC`
(`local_buffer.py:111-119`): some permutation of the stored rows that is
non-decreasing on `created_at` — the clause fixes nothing about the
relative order of rows sharing a `created_at`. -/
def orderedByCreatedAt (rows sorted : List Envelope) : Prop :=
  sorted.Perm rows ∧ sorted.Pairwise fun a b => a.created_at ≤ b.created_at

/-- Method `LocalBuffer.get_pending` (`local_buffer.py:99-130`): `LIMIT` the sorted
rows and project each onto the five selected columns. -/
def get_pending (limit : Nat) (sorted : List Envelope) : List PendingRecord :=
  (sorted.take limit).map fun e =>
    ⟨e.id, e.payload, e.created_at, e.retry_count, e.last_error⟩

/-! ### Retry backoff (`cloud_sync_client.py:130-158`)

The delay arithmetic is Python `float`; it is modelled over `ℚ` with the
exact constants. -/

/-- Constant `BASE_RETRY_DELAY` (`cloud_sync_client.py:38`). -/
def BASE_RETRY_DELAY : ℚ := 1

/-- Constant `MAX_RETRY_DELAY` (`cloud_sync_client.py:39`). -/
def MAX_RETRY_DELAY : ℚ := 60

/-- The `delay` variable before the `k`-th sleep of the retry loop: it
starts at `BASE_RETRY_DELAY` and is doubled (`delay *= 2`) after each
sleep. -/
def retry_delay (k : Nat) : ℚ := BASE_RETRY_DELAY * 2 ^ k

/-- The jitter added to the `k`-th sleep:
`jitter = delay * 0.1 * (0.5 - time.time() % 1)` with `time.time() % 1`
ranging over `[0, 1)`, hence `jitter ∈ (-delay/20, delay/20]`. -/
def validJitter (d j : ℚ) : Prop :=
  -(d / 20) < j ∧ j ≤ d / 20

/-- Formula `sleep_time = min(delay + jitter, MAX_RETRY_DELAY)`
(`cloud_sync_client.py:153`). -/
def sleep_time (d j : ℚ) : ℚ := min (d + j) MAX_RETRY_DELAY

end Apis

namespace Apis

/-! ## Helper lemmas -/

theorem foldl_max_range' (n : Nat) :
    ∀ (pos a : Nat), List.foldl max a (List.range' pos (n + 1)) = max a (pos + n) := by
  induction n with
  | zero => intro pos a; simp [List.range']
  | succ n ih =>
    intro pos a
    rw [List.range'_succ, List.foldl_cons, ih]
    omega

theorem maxLogId_eq_foldl (rows : List Change) :
    maxLogId rows = List.foldl max 0 (rows.map Change.log_id) := by
  rw [List.foldl_map]; rfl

end Apis

namespace Apis

/-! ## C1 -/

/-- Claim C1 is false of the code: `ChangesIntake._process_changes` advances
the cursor with `self.pos += len(rows)` (`changes_intake.py:80`), not to
`max(log_id seen) + 1`.  Concretely, with cursor 1 (the initial position
used by `main.py:86`) and `CHANGES_LOG` holding one unprocessed row with
`log_id = 5` (earlier rows already deleted, the sequence persisting),
the wake fetches that row, pushes it, and leaves the cursor at 2, not 6;
a second wake before any worker marks the row refetches it and pushes the
same `Change` a second time. -/
theorem C1_counterexample :
    fetchedRows [⟨5, 1, 0, "INSERT", 0, false⟩] 1 [⟨5, 1, 0, "INSERT", 0, false⟩] ∧
    (process_changes ⟨1, []⟩ [⟨5, 1, 0, "INSERT", 0, false⟩]).pos ≠
      maxLogId [⟨5, 1, 0, "INSERT", 0, false⟩] + 1 ∧
    fetchedRows [⟨5, 1, 0, "INSERT", 0, false⟩]
      (process_changes ⟨1, []⟩ [⟨5, 1, 0, "INSERT", 0, false⟩]).pos
      [⟨5, 1, 0, "INSERT", 0, false⟩] ∧
    (process_changes (process_changes ⟨1, []⟩ [⟨5, 1, 0, "INSERT", 0, false⟩])
        [⟨5, 1, 0, "INSERT", 0, false⟩]).output.count ⟨5, 1, 0, "INSERT", 0, false⟩ = 2 := by
  decide

/-- C1, amended: after pushing all decoded `Change`s onto the shared queue,
the intake cursor is advanced by the number of rows fetched
(`self.pos += len(rows)`); this equals `max(log_id seen) + 1` when the
fetched `log_id`s are exactly the consecutive block starting at the
cursor, but otherwise need not be, and a `Change` with the same `log_id`
can be fetched and pushed again on a later wake (delivery is
at-least-once, not exactly-once). -/
theorem C1_amended (s : IntakeState) (rows : List Change) (hne : rows ≠ [])
    (hc : rows.map Change.log_id = List.range' s.pos rows.length) :
    (process_changes s rows).pos = s.pos + rows.length ∧
    (process_changes s rows).pos = maxLogId rows + 1 := by
  refine ⟨rfl, ?_⟩
  obtain ⟨n, hn⟩ : ∃ n, rows.length = n + 1 := by
    cases rows with
    | nil => exact absurd rfl hne
    | cons r rest => exact ⟨rest.length, rfl⟩
  show s.pos + rows.length = maxLogId rows + 1
  rw [maxLogId_eq_foldl, hc, hn, foldl_max_range']
  omega

/-- Witness for `C1_amended`: a wake at cursor 3 fetching rows 3 and 4. -/
theorem C1_witness :
    ([⟨3, 1, 0, "INSERT", 0, false⟩, ⟨4, 2, 0, "UPDATE", 0, false⟩] : List Change) ≠ [] ∧
    ([⟨3, 1, 0, "INSERT", 0, false⟩,
      (⟨4, 2, 0, "UPDATE", 0, false⟩ : Change)].map Change.log_id =
        List.range' 3 2) ∧
    (process_changes ⟨3, []⟩
        [⟨3, 1, 0, "INSERT", 0, false⟩, ⟨4, 2, 0, "UPDATE", 0, false⟩]).pos = 3 + 2 ∧
    (process_changes ⟨3, []⟩
        [⟨3, 1, 0, "INSERT", 0, false⟩, ⟨4, 2, 0, "UPDATE", 0, false⟩]).pos =
      maxLogId [⟨3, 1, 0, "INSERT", 0, false⟩, ⟨4, 2, 0, "UPDATE", 0, false⟩] + 1 :=
  ⟨by decide, by decide,
    (C1_amended ⟨3, []⟩ [⟨3, 1, 0, "INSERT", 0, false⟩, ⟨4, 2, 0, "UPDATE", 0, false⟩]
      (by decide) (by decide)).1,
    (C1_amended ⟨3, []⟩ [⟨3, 1, 0, "INSERT", 0, false⟩, ⟨4, 2, 0, "UPDATE", 0, false⟩]
      (by decide) (by decide)).2⟩

/-! ## C4 -/

/-- Claim C4 is false of the code: the intake query at
`changes_intake.py:74` has no `ORDER BY` clause, so the database may
return matching rows in any order and `_process_changes` pushes them in
exactly that order.  With two unprocessed rows (`log_id` 1 and 2) returned
as `[2, 1]` — a legal result of the unordered `SELECT` — the pushed
sequence is not in increasing `log_id` order. -/
theorem C4_counterexample :
    fetchedRows [⟨1, 1, 0, "INSERT", 0, false⟩, ⟨2, 2, 0, "UPDATE", 0, false⟩] 0
      [⟨2, 2, 0, "UPDATE", 0, false⟩, ⟨1, 1, 0, "INSERT", 0, false⟩] ∧
    ¬ ((process_changes ⟨0, []⟩
          [⟨2, 2, 0, "UPDATE", 0, false⟩, ⟨1, 1, 0, "INSERT", 0, false⟩]).output.Chain'
        fun a b => a.log_id < b.log_id) := by
  refine ⟨by decide, ?_⟩
  simp [process_changes, List.chain'_cons]

/-- C4, amended: on every wake the rows read (those with `log_id >= cursor`
and `processed = false`) are pushed onto the shared queue in the order the
database returns them — the query carries no `ORDER BY`, so that order is
not guaranteed to be by `log_id`; the pushed segment is exactly the
matching rows (as a multiset), and it is in strictly increasing `log_id`
order whenever the database happens to return the rows so ordered. -/
theorem C4_amended (table : List Change) (s : IntakeState) (rows : List Change)
    (hf : fetchedRows table s.pos rows) :
    (process_changes s rows).output = s.output ++ rows ∧
    ((process_changes s rows).output.drop s.output.length).Perm
      (table.filter (matchesIntakeQuery s.pos)) ∧
    ((rows.map Change.log_id).Chain' (· < ·) →
      (((process_changes s rows).output.drop s.output.length).map Change.log_id).Chain'
        (· < ·)) := by
  refine ⟨rfl, ?_, ?_⟩
  · show ((s.output ++ rows).drop s.output.length).Perm _
    rw [List.drop_left]
    exact hf
  · intro hsorted
    show (((s.output ++ rows).drop s.output.length).map Change.log_id).Chain' (· < ·)
    rw [List.drop_left]
    exact hsorted

/-- Witness for `C4_amended`: a wake at cursor 0 over a two-row log
returned in ascending order. -/
theorem C4_witness :
    fetchedRows [⟨1, 1, 0, "INSERT", 0, false⟩, ⟨2, 2, 0, "UPDATE", 0, false⟩] 0
      [⟨1, 1, 0, "INSERT", 0, false⟩, ⟨2, 2, 0, "UPDATE", 0, false⟩] ∧
    ((process_changes ⟨0, []⟩
        [⟨1, 1, 0, "INSERT", 0, false⟩, ⟨2, 2, 0, "UPDATE", 0, false⟩]).output =
      [] ++ [⟨1, 1, 0, "INSERT", 0, false⟩, ⟨2, 2, 0, "UPDATE", 0, false⟩]) ∧
    (((process_changes ⟨0, []⟩
        [⟨1, 1, 0, "INSERT", 0, false⟩, ⟨2, 2, 0, "UPDATE", 0, false⟩]).output.drop 0).Perm
      ([⟨1, 1, 0, "INSERT", 0, false⟩,
        (⟨2, 2, 0, "UPDATE", 0, false⟩ : Change)].filter (matchesIntakeQuery 0))) :=
  ⟨by decide,
    (C4_amended [⟨1, 1, 0, "INSERT", 0, false⟩, ⟨2, 2, 0, "UPDATE", 0, false⟩] ⟨0, []⟩
      [⟨1, 1, 0, "INSERT", 0, false⟩, ⟨2, 2, 0, "UPDATE", 0, false⟩] (by decide)).1,
    (C4_amended [⟨1, 1, 0, "INSERT", 0, false⟩, ⟨2, 2, 0, "UPDATE", 0, false⟩] ⟨0, []⟩
      [⟨1, 1, 0, "INSERT", 0, false⟩, ⟨2, 2, 0, "UPDATE", 0, false⟩] (by decide)).2.1⟩

/-! ## Recovery-pass lemmas (shared by C5 and C6) -/

theorem process_leftover_snd (rows : List Change) :
    ∀ (log : List Change) (tr : List Nat),
      (rows.foldl (fun acc c => (markProcessed acc.1 c.log_id, acc.2 ++ [c.log_id]))
        (log, tr)).2 = tr ++ rows.map Change.log_id := by
  induction rows with
  | nil => intro log tr; simp
  | cons c rest ih =>
    intro log tr
    rw [List.foldl_cons, ih, List.map_cons]
    simp

theorem process_leftover_fst (rows : List Change) :
    ∀ (log : List Change) (tr : List Nat),
      (rows.foldl (fun acc c => (markProcessed acc.1 c.log_id, acc.2 ++ [c.log_id]))
        (log, tr)).1 = rows.foldl (fun l c => markProcessed l c.log_id) log := by
  induction rows with
  | nil => intro log tr; rfl
  | cons c rest ih => intro log tr; rw [List.foldl_cons, List.foldl_cons, ih]

/-- Rows surviving a fold of `markProcessed` steps either carry
`processed = true` or are original rows whose `log_id` was never marked. -/
theorem mark_fold_mem (rows : List Change) :
    ∀ (log : List Change) (r : Change),
      r ∈ rows.foldl (fun l c => markProcessed l c.log_id) log →
      r.processed = true ∨
        (r ∈ log ∧ r.processed = false ∧ ∀ c ∈ rows, c.log_id ≠ r.log_id) := by
  induction rows with
  | nil =>
    intro log r h
    by_cases hp : r.processed
    · exact Or.inl hp
    · exact Or.inr ⟨h, by simpa using hp, by simp⟩
  | cons c rest ih =>
    intro log r h
    rw [List.foldl_cons] at h
    rcases ih (markProcessed log c.log_id) r h with hp | ⟨hm, hf, hrest⟩
    · exact Or.inl hp
    · rcases List.mem_map.mp hm with ⟨r0, hr0, heq⟩
      by_cases hid : r0.log_id = c.log_id
      · rw [if_pos hid] at heq
        rw [← heq] at hf
        simp at hf
      · rw [if_neg hid] at heq
        subst heq
        refine Or.inr ⟨hr0, hf, ?_⟩
        intro c' hc'
        rcases List.mem_cons.mp hc' with rfl | h'
        · exact fun he => hid he.symm
        · exact hrest c' h'

/-- After `process_leftover_mutations` runs over a fetch covering all the
unprocessed rows, every row of `CHANGES_LOG` carries `processed = true`. -/
theorem leftover_pass_all_processed (log rows : List Change)
    (hf : fetchedLeftovers log rows) :
    ∀ r ∈ (process_leftover_mutations log rows).1, r.processed = true := by
  intro r hr
  rw [process_leftover_mutations, process_leftover_fst] at hr
  rcases mark_fold_mem rows log r hr with h | ⟨hm, hp, hni⟩
  · exact h
  · exfalso
    have hfilter : r ∈ log.filter matchesLeftoverQuery :=
      List.mem_filter.mpr ⟨hm, by simp [matchesLeftoverQuery, hp]⟩
    exact hni r (hf.mem_iff.mpr hfilter) rfl

/-- The recovery pass followed by
`DELETE FROM CHANGES_LOG WHERE PROCESSED = 1` leaves the log empty. -/
theorem leftover_then_delete_empty (log rows : List Change)
    (hf : fetchedLeftovers log rows) :
    delete_processed_mutations (process_leftover_mutations log rows).1 = [] := by
  rw [delete_processed_mutations, List.filter_eq_nil_iff]
  intro r hr
  simp [leftover_pass_all_processed log rows hf r hr]

/-! ## C5 -/

/-- Claim C5 is false of the code on its ordering part: the recovery query
`SELECT * FROM CHANGES_LOG WHERE PROCESSED = 0` (`database_manager.py:36`)
has no `ORDER BY` clause, so the fetched rows — here the two unprocessed
rows returned as `[2, 1]`, a legal result of the unordered `SELECT` — are
re-driven in an order that is not ascending in `log_id`. -/
theorem C5_counterexample :
    fetchedLeftovers [⟨1, 1, 0, "INSERT", 0, false⟩, ⟨2, 2, 0, "UPDATE", 0, false⟩]
      [⟨2, 2, 0, "UPDATE", 0, false⟩, ⟨1, 1, 0, "INSERT", 0, false⟩] ∧
    ¬ ((process_leftover_mutations
          [⟨1, 1, 0, "INSERT", 0, false⟩, ⟨2, 2, 0, "UPDATE", 0, false⟩]
          [⟨2, 2, 0, "UPDATE", 0, false⟩, ⟨1, 1, 0, "INSERT", 0, false⟩]).2.Chain'
        (· < ·)) := by
  refine ⟨by decide, ?_⟩
  rw [process_leftover_mutations, process_leftover_snd]
  simp [List.chain'_cons]

/-- C5, amended: on startup the Recoverer processes exactly the
`CHANGES_LOG` rows with `processed = false` — in the order the database
returns them, the query having no `ORDER BY` clause — re-driving each
through hydration and send and setting `processed = true` on it; after
that pass it deletes all rows with `processed = true`, which leaves the
log empty. -/
theorem C5_amended (log rows : List Change) (hf : fetchedLeftovers log rows) :
    (process_leftover_mutations log rows).2 = rows.map Change.log_id ∧
    (process_leftover_mutations log rows).2.Perm
      ((log.filter matchesLeftoverQuery).map Change.log_id) ∧
    (∀ r ∈ (process_leftover_mutations log rows).1, r.processed = true) ∧
    delete_processed_mutations (process_leftover_mutations log rows).1 = [] := by
  have htr : (process_leftover_mutations log rows).2 = rows.map Change.log_id := by
    rw [process_leftover_mutations, process_leftover_snd]; simp
  refine ⟨htr, ?_, leftover_pass_all_processed log rows hf,
    leftover_then_delete_empty log rows hf⟩
  rw [htr]
  exact hf.map Change.log_id

/-- Witness for `C5_amended`: a two-row log with one already-processed row. -/
theorem C5_witness :
    fetchedLeftovers [⟨1, 1, 0, "INSERT", 0, true⟩, ⟨2, 2, 0, "UPDATE", 0, false⟩]
      [⟨2, 2, 0, "UPDATE", 0, false⟩] ∧
    (process_leftover_mutations [⟨1, 1, 0, "INSERT", 0, true⟩, ⟨2, 2, 0, "UPDATE", 0, false⟩]
        [⟨2, 2, 0, "UPDATE", 0, false⟩]).2 =
      ([⟨2, 2, 0, "UPDATE", 0, false⟩] : List Change).map Change.log_id ∧
    delete_processed_mutations
      (process_leftover_mutations [⟨1, 1, 0, "INSERT", 0, true⟩, ⟨2, 2, 0, "UPDATE", 0, false⟩]
        [⟨2, 2, 0, "UPDATE", 0, false⟩]).1 = [] :=
  ⟨by decide,
    (C5_amended [⟨1, 1, 0, "INSERT", 0, true⟩, ⟨2, 2, 0, "UPDATE", 0, false⟩]
      [⟨2, 2, 0, "UPDATE", 0, false⟩] (by decide)).1,
    (C5_amended [⟨1, 1, 0, "INSERT", 0, true⟩, ⟨2, 2, 0, "UPDATE", 0, false⟩]
      [⟨2, 2, 0, "UPDATE", 0, false⟩] (by decide)).2.2.2⟩

/-! ## C6 -/

/-- Claim C6 is false of the code on the exit status:
`DatabaseManager.ensure_clean_slate` (`database_manager.py:50-56`) aborts a
non-empty log with the builtin `exit()` called with no argument, which
terminates the process with exit status 0, not 1. -/
theorem C6_counterexample :
    ensure_clean_slate [⟨1, 1, 0, "INSERT", 0, false⟩] = .aborts 0 ∧
    ensure_clean_slate [⟨1, 1, 0, "INSERT", 0, false⟩] ≠ .aborts 1 := by
  decide

/-- C6, amended: if, after the recovery pass and the deletion of processed
rows, `CHANGES_LOG` still contains at least one row, startup aborts and
the process exits — with exit status 0, the code calling the bare
`exit()`; otherwise startup proceeds.  In particular, absent concurrent
writes, the recovery pass itself leaves the log empty and startup
proceeds. -/
theorem C6_amended (log : List Change) :
    (log ≠ [] → ensure_clean_slate log = .aborts 0) ∧
    (log = [] → ensure_clean_slate log = .proceeds) ∧
    (∀ rows, fetchedLeftovers log rows →
      ensure_clean_slate
        (delete_processed_mutations (process_leftover_mutations log rows).1) = .proceeds) := by
  refine ⟨?_, ?_, ?_⟩
  · intro h
    rw [ensure_clean_slate, if_pos]
    simpa using h
  · intro h
    subst h
    rfl
  · intro rows hf
    rw [leftover_then_delete_empty log rows hf]
    rfl

/-- Witness for `C6_amended`: a singleton log aborts (with status 0); the
empty log proceeds; recovery over the singleton log yields a clean-slate
check that proceeds. -/
theorem C6_witness :
    ensure_clean_slate [⟨1, 1, 0, "INSERT", 0, false⟩] = .aborts 0 ∧
    ensure_clean_slate [] = .proceeds ∧
    ensure_clean_slate
      (delete_processed_mutations
        (process_leftover_mutations [⟨1, 1, 0, "INSERT", 0, false⟩]
          [⟨1, 1, 0, "INSERT", 0, false⟩]).1) = .proceeds :=
  ⟨(C6_amended [⟨1, 1, 0, "INSERT", 0, false⟩]).1 (by decide),
    (C6_amended []).2.1 rfl,
    (C6_amended [⟨1, 1, 0, "INSERT", 0, false⟩]).2.2
      [⟨1, 1, 0, "INSERT", 0, false⟩] (by decide)⟩

/-! ## C9 -/

/-- Claim C9 is false of the code on its tie-breaking part: the query of
`LocalBuffer.get_pending` (`local_buffer.py:111-119`) orders by
`created_at` only — no secondary `ORDER BY` on `id` — so rows sharing a
`created_at` may come back in either order.  With two envelopes carrying
the same `created_at` and ids 1 and 2, the result `[id 2, id 1]` is a
legal answer of the query, and it does not break the tie by ascending
`id`. -/
theorem C9_counterexample :
    orderedByCreatedAt [⟨1, [], 7, 0, none, none⟩, ⟨2, [], 7, 0, none, none⟩]
      [⟨2, [], 7, 0, none, none⟩, ⟨1, [], 7, 0, none, none⟩] ∧
    ¬ ((get_pending 2 [⟨2, [], 7, 0, none, none⟩, ⟨1, [], 7, 0, none, none⟩]).Pairwise
        fun a b => a.created_at < b.created_at ∨
          (a.created_at = b.created_at ∧ a.id < b.id)) := by
  refine ⟨⟨List.isPerm_iff.mp (by decide), by decide⟩, ?_⟩
  simp [get_pending, List.pairwise_cons]

/-- C9, amended: for every buffer state and limit, `get_pending(limit)`
returns the oldest `min(limit, pending count)` envelopes sorted by
`created_at` in non-decreasing order — the relative order of envelopes
sharing a `created_at` being unspecified, since the query orders by
`created_at` only — each record carrying its current `retry_count` and
`last_error`. -/
theorem C9_amended (rows sorted : List Envelope) (limit : Nat)
    (h : orderedByCreatedAt rows sorted) :
    (get_pending limit sorted).length = min limit rows.length ∧
    ((get_pending limit sorted).Pairwise fun a b => a.created_at ≤ b.created_at) ∧
    (∀ r ∈ get_pending limit sorted, ∃ e ∈ rows,
      r = ⟨e.id, e.payload, e.created_at, e.retry_count, e.last_error⟩) ∧
    (∀ r ∈ get_pending limit sorted, ∀ e ∈ sorted.drop limit,
      r.created_at ≤ e.created_at) := by
  obtain ⟨hperm, hsort⟩ := h
  refine ⟨?_, ?_, ?_, ?_⟩
  · simp [get_pending, hperm.length_eq]
  · rw [get_pending, List.pairwise_map]
    exact hsort.take
  · intro r hr
    rcases List.mem_map.mp hr with ⟨e, he, rfl⟩
    exact ⟨e, hperm.subset (List.take_subset limit sorted he), rfl⟩
  · intro r hr e' he'
    rcases List.mem_map.mp hr with ⟨e, he, rfl⟩
    exact hsort.rel_of_mem_take_of_mem_drop he he'

/-- Witness for `C9_amended`: three envelopes with distinct `created_at`,
stored out of order, queried with limit 2. -/
theorem C9_witness :
    orderedByCreatedAt
      [⟨1, [], 9, 0, none, none⟩, ⟨2, [], 3, 1, some "e", none⟩, ⟨3, [], 5, 0, none, none⟩]
      [⟨2, [], 3, 1, some "e", none⟩, ⟨3, [], 5, 0, none, none⟩, ⟨1, [], 9, 0, none, none⟩] ∧
    (get_pending 2
        [⟨2, [], 3, 1, some "e", none⟩, ⟨3, [], 5, 0, none, none⟩,
          ⟨1, [], 9, 0, none, none⟩]).length = min 2 3 ∧
    ((get_pending 2
        [⟨2, [], 3, 1, some "e", none⟩, ⟨3, [], 5, 0, none, none⟩,
          ⟨1, [], 9, 0, none, none⟩]).Pairwise fun a b => a.created_at ≤ b.created_at) :=
  ⟨⟨List.isPerm_iff.mp (by decide), by decide⟩,
    (C9_amended
      [⟨1, [], 9, 0, none, none⟩, ⟨2, [], 3, 1, some "e", none⟩, ⟨3, [], 5, 0, none, none⟩]
      [⟨2, [], 3, 1, some "e", none⟩, ⟨3, [], 5, 0, none, none⟩, ⟨1, [], 9, 0, none, none⟩]
      2 ⟨List.isPerm_iff.mp (by decide), by decide⟩).1,
    (C9_amended
      [⟨1, [], 9, 0, none, none⟩, ⟨2, [], 3, 1, some "e", none⟩, ⟨3, [], 5, 0, none, none⟩]
      [⟨2, [], 3, 1, some "e", none⟩, ⟨3, [], 5, 0, none, none⟩, ⟨1, [], 9, 0, none, none⟩]
      2 ⟨List.isPerm_iff.mp (by decide), by decide⟩).2.1⟩

/-! ## Retry-loop lemmas (shared by C7 and C8) -/

theorem send_with_retry_list_success (p : Payload) (att : Nat → HttpAttempt) :
    ∀ l : List Nat,
      (send_with_retry_list p att l).1 = l.any fun i => (send_request p (att i)).1 := by
  intro l
  induction l with
  | nil => rfl
  | cons i rest ih =>
    by_cases h : (send_request p (att i)).1
    · simp [send_with_retry_list, h]
    · simp only [send_with_retry_list, List.any_cons]
      rw [if_neg (by simpa using h)]
      simp [ih, h]

theorem send_with_retry_list_allfail (p : Payload) (att : Nat → HttpAttempt)
    (hall : ∀ i, send_request p (att i) = (false, 0)) :
    ∀ l : List Nat, send_with_retry_list p att l = (false, l.length, 0) := by
  intro l
  induction l with
  | nil => rfl
  | cons i rest ih =>
    rw [send_with_retry_list, hall i, ih]
    simp

/-! ## C7 -/

/-- Claim C7 fails on the code for payloads that need the serialization
fallback.  With a payload containing a `Decimal` and every HTTP attempt
failing (endpoint down), the claim requires `send` to add the payload to
the `LocalBuffer` with error text "Max retries exceeded" and return false;
instead `LocalBuffer.add` serializes with the plain `json.dumps(payload)`
(`local_buffer.py:94`, no `default=` fallback), which raises `TypeError`,
so `send` propagates the exception, stores nothing, and returns nothing —
after the full five failed attempts.  The sender itself had no trouble
serializing the payload (`dumps_with_fallback_ok` holds), so the spec's
buffered-on-exhaustion behaviour is clearly the intent and the missing
fallback in `LocalBuffer.add` is the slip. -/
theorem C7_eval :
    (send ⟨0, []⟩ [.decimal] (fun _ => .exn) 0).result = .error () ∧
    (send ⟨0, []⟩ [.decimal] (fun _ => .exn) 0).buf = ⟨0, []⟩ ∧
    (send ⟨0, []⟩ [.decimal] (fun _ => .exn) 0).attemptsMade = MAX_RETRIES ∧
    dumps_with_fallback_ok [.decimal] = true ∧
    ¬ ((send ⟨0, []⟩ [.decimal] (fun _ => .exn) 0).result = .ok false ∧
        (send ⟨0, []⟩ [.decimal] (fun _ => .exn) 0).buf.rows ≠ []) := by
  refine ⟨rfl, rfl, rfl, rfl, ?_⟩
  rintro ⟨h, -⟩
  exact Except.noConfusion (h : (Except.error () : Except Unit Bool) = .ok false)

/-! ## C8 -/

/-- Claim C8 is false of the code on its no-retries part: for a payload
holding a non-serializable value, the `TypeError` raised by `json.dumps`
inside `_send_request` is swallowed by that method's catch-all
(`cloud_sync_client.py:126-128`), so the retry loop runs all
`MAX_RETRIES = 5` attempts (the code's own "Attempt n failed" counter
reaches 5) before the exception that reaches the caller is raised — by
`LocalBuffer.add`'s `json.dumps` — rather than zero attempts being
performed. -/
theorem C8_counterexample :
    (send ⟨0, []⟩ [.other] (fun _ => .status 200) 0).attemptsMade = 5 ∧
    ¬ ((send ⟨0, []⟩ [.other] (fun _ => .status 200) 0).attemptsMade = 0) := by
  decide

/-- C8, amended: for every payload containing a value of a type that cannot
be JSON-serialized even by the fallback (neither native nor a `Decimal`
nor a date/timestamp), `Sender.send` raises a `TypeError` to its caller
and buffers nothing — but only after running all `MAX_RETRIES` loop
attempts, each of which swallows the per-attempt serialization failure and
issues no HTTP request; the exception that propagates is raised by the
buffer's own `json.dumps` when `send` tries to buffer the payload after
exhausting retries. -/
theorem C8_amended (b : BufferState) (att : Nat → HttpAttempt) (now : Nat)
    (p : Payload) (hother : PyVal.other ∈ p) :
    (send b p att now).result = .error () ∧
    (send b p att now).attemptsMade = MAX_RETRIES ∧
    (send b p att now).httpRequests = 0 ∧
    (send b p att now).buf = b := by
  have hdf : dumps_with_fallback_ok p = false := by
    rw [dumps_with_fallback_ok, List.all_eq_false]
    exact ⟨PyVal.other, hother, by decide⟩
  have hdp : dumps_plain_ok p = false := by
    rw [dumps_plain_ok, List.all_eq_false]
    exact ⟨PyVal.other, hother, by decide⟩
  have hreq : ∀ i, send_request p (att i) = (false, 0) := by
    intro i
    rw [send_request.eq_def, hdf]
    simp
  have h5 := send_with_retry_list_allfail p att hreq (List.range MAX_RETRIES)
  have hsend : send b p att now = ⟨.error (), b, MAX_RETRIES, 0⟩ := by
    rw [send.eq_def, send_with_retry, h5, List.length_range MAX_RETRIES,
      buffer_add.eq_def, hdp]
    simp
  rw [hsend]
  exact ⟨rfl, rfl, rfl, rfl⟩

/-- Witness for `C8_amended`: a singleton `other`-typed payload against a
healthy endpoint. -/
theorem C8_witness :
    PyVal.other ∈ ([.other] : Payload) ∧
    (send ⟨0, []⟩ [.other] (fun _ => .status 200) 0).result = .error () ∧
    (send ⟨0, []⟩ [.other] (fun _ => .status 200) 0).attemptsMade = MAX_RETRIES ∧
    (send ⟨0, []⟩ [.other] (fun _ => .status 200) 0).httpRequests = 0 ∧
    (send ⟨0, []⟩ [.other] (fun _ => .status 200) 0).buf = ⟨0, []⟩ :=
  ⟨by decide,
    (C8_amended ⟨0, []⟩ (fun _ => .status 200) 0 [.other] (by decide)).1,
    (C8_amended ⟨0, []⟩ (fun _ => .status 200) 0 [.other] (by decide)).2.1,
    (C8_amended ⟨0, []⟩ (fun _ => .status 200) 0 [.other] (by decide)).2.2.1,
    (C8_amended ⟨0, []⟩ (fun _ => .status 200) 0 [.other] (by decide)).2.2.2⟩

/-! ## C10 -/

/-- C10, confirmed: in the inline retry loop's sleeps (attempt indices
`k = 0 .. MAX_RETRIES - 2`), the base delay starts at
`BASE_RETRY_DELAY = 1` and doubles each attempt; for every `k ≥ 1` the
`k`-th sleep is at least the `(k-1)`-th up to the jitter terms (their
jitter-free values `min(delay, MAX_RETRY_DELAY)` are monotone), and every
sleep is bounded above by `MAX_RETRY_DELAY = 60`. -/
theorem C10_backoff (k : Nat) (hk1 : 1 ≤ k) (hk2 : k ≤ MAX_RETRIES - 2)
    (jk jk1 : ℚ) (hjk : validJitter (retry_delay k) jk)
    (hjk1 : validJitter (retry_delay (k - 1)) jk1) :
    retry_delay 0 = BASE_RETRY_DELAY ∧
    retry_delay k = 2 * retry_delay (k - 1) ∧
    min (retry_delay (k - 1)) MAX_RETRY_DELAY ≤ min (retry_delay k) MAX_RETRY_DELAY ∧
    sleep_time (retry_delay (k - 1)) jk1 - (|jk1| + |jk|) ≤
      sleep_time (retry_delay k) jk ∧
    sleep_time (retry_delay k) jk ≤ MAX_RETRY_DELAY := by
  have hd : ∀ n : Nat, retry_delay n = 2 ^ n := by
    intro n; rw [retry_delay, BASE_RETRY_DELAY, one_mul]
  have hmono : retry_delay (k - 1) ≤ retry_delay k := by
    rw [hd, hd]
    exact pow_le_pow_right₀ (by norm_num) (Nat.sub_le k 1)
  refine ⟨?_, ?_, ?_, ?_, ?_⟩
  · rw [hd]; norm_num [BASE_RETRY_DELAY]
  · rw [hd, hd]
    obtain ⟨m, rfl⟩ := Nat.exists_eq_add_of_le hk1
    rw [Nat.add_sub_cancel_left, pow_add]
    ring
  · exact min_le_min hmono le_rfl
  · simp only [sleep_time]
    refine le_min ?_ ?_
    · have l1 : min (retry_delay (k - 1) + jk1) MAX_RETRY_DELAY ≤
          retry_delay (k - 1) + jk1 := min_le_left _ _
      linarith [le_abs_self jk1, neg_abs_le jk, hmono]
    · have l2 : min (retry_delay (k - 1) + jk1) MAX_RETRY_DELAY ≤ MAX_RETRY_DELAY :=
        min_le_right _ _
      linarith [abs_nonneg jk1, abs_nonneg jk]
  · exact min_le_right _ _

/-- Witness for `C10_backoff`: the second sleep (`k = 1`) with jitters at
their admissible extremes. -/
theorem C10_witness :
    (1 ≤ MAX_RETRIES - 2) ∧
    validJitter (retry_delay 1) (1 / 10) ∧
    validJitter (retry_delay 0) (1 / 20) ∧
    (retry_delay 0 = BASE_RETRY_DELAY ∧
      retry_delay 1 = 2 * retry_delay 0 ∧
      min (retry_delay 0) MAX_RETRY_DELAY ≤ min (retry_delay 1) MAX_RETRY_DELAY ∧
      sleep_time (retry_delay 0) (1 / 20) - (|(1 : ℚ) / 20| + |(1 : ℚ) / 10|) ≤
        sleep_time (retry_delay 1) (1 / 10) ∧
      sleep_time (retry_delay 1) (1 / 10) ≤ MAX_RETRY_DELAY) :=
  ⟨by norm_num [MAX_RETRIES],
    by norm_num [validJitter, retry_delay, BASE_RETRY_DELAY],
    by norm_num [validJitter, retry_delay, BASE_RETRY_DELAY],
    C10_backoff 1 le_rfl (by norm_num [MAX_RETRIES]) (1 / 10) (1 / 20)
      (by norm_num [validJitter, retry_delay, BASE_RETRY_DELAY])
      (by norm_num [validJitter, retry_delay, BASE_RETRY_DELAY])⟩

/-! ## C2 -/

/-- C2, confirmed: for every `Change` a worker dequeues (all of which carry
a trigger-written mutation kind, i.e. `INSERT`, `UPDATE` or `DELETE`), the
`CHANGES_LOG` row for its `log_id` is set `processed = true` only after
the Sender call for that change has returned — the returned boolean,
`false` meaning buffered-for-later, is ignored by `begin_read`, so either
value counts — and if an exception is raised during table lookup,
hydration, or send, the row is left untouched (`processed` stays false)
and the worker loop continues with the next queue item. -/
theorem C2_mark_after_send (id_to_table : List (Nat × String))
    (table_primary_keys : List (String × String)) (ho : Change → HandlerOutcome)
    (worker_id : Nat) (log : List Change) (c : Change) (rest : List (Option Change))
    (hmut : c.mutation = "INSERT" ∨ c.mutation = "UPDATE" ∨ c.mutation = "DELETE") :
    (begin_read_loop id_to_table table_primary_keys ho worker_id log (some c :: rest) =
      ((begin_read_loop id_to_table table_primary_keys ho worker_id
          (begin_read_step id_to_table table_primary_keys (ho c) worker_id log c).1 rest).1,
        (begin_read_step id_to_table table_primary_keys (ho c) worker_id log c).2 ++
          (begin_read_loop id_to_table table_primary_keys ho worker_id
            (begin_read_step id_to_table table_primary_keys (ho c) worker_id log c).1
            rest).2)) ∧
    (∀ j : Nat,
      (begin_read_step id_to_table table_primary_keys (ho c) worker_id log c).2[j]? =
          some (WorkerEvent.markedProcessed c.log_id) →
        (begin_read_step id_to_table table_primary_keys (ho c) worker_id log c).1 =
            markProcessed log c.log_id ∧
          ∃ (i : Nat) (b : Bool), i < j ∧
            (begin_read_step id_to_table table_primary_keys (ho c) worker_id log c).2[i]? =
              some (WorkerEvent.senderReturned c.log_id b)) ∧
    ((process_change_run id_to_table table_primary_keys (ho c) c).2 = true →
      (begin_read_step id_to_table table_primary_keys (ho c) worker_id log c).1 = log ∧
        ∀ j : Nat,
          (begin_read_step id_to_table table_primary_keys (ho c) worker_id log c).2[j]? ≠
            some (WorkerEvent.markedProcessed c.log_id)) := by
  have hrun :
      (∃ b, process_change_run id_to_table table_primary_keys (ho c) c =
          ([.senderReturned c.log_id b], false)) ∨
      process_change_run id_to_table table_primary_keys (ho c) c = ([], true) := by
    cases hl1 : List.lookup c.table_id id_to_table with
    | none => exact Or.inr (by simp [process_change_run, hl1])
    | some tn =>
      cases hl2 : List.lookup tn table_primary_keys with
      | none => exact Or.inr (by simp [process_change_run, hl1, hl2])
      | some pk =>
        cases hho : ho c with
        | returned b =>
          refine Or.inl ⟨b, ?_⟩
          rcases hmut with h | h | h <;> simp [process_change_run, hl1, hl2, hho, h]
        | raised =>
          refine Or.inr ?_
          rcases hmut with h | h | h <;> simp [process_change_run, hl1, hl2, hho, h]
  rcases hrun with ⟨b, hr⟩ | hr
  · have hstep :
        begin_read_step id_to_table table_primary_keys (ho c) worker_id log c =
          (markProcessed log c.log_id,
            [.senderReturned c.log_id b, .markedProcessed c.log_id]) := by
      simp [begin_read_step, hr]
    refine ⟨rfl, ?_, ?_⟩
    · intro j hj
      rw [hstep] at hj ⊢
      cases j with
      | zero => simp at hj
      | succ j =>
        cases j with
        | zero => exact ⟨rfl, 0, b, Nat.zero_lt_one, rfl⟩
        | succ j => simp at hj
    · intro htrue
      rw [hr] at htrue
      simp at htrue
  · have hstep :
        begin_read_step id_to_table table_primary_keys (ho c) worker_id log c =
          (log, [.exceptionLogged worker_id]) := by
      simp [begin_read_step, hr]
    refine ⟨rfl, ?_, ?_⟩
    · intro j hj
      rw [hstep] at hj
      cases j with
      | zero => simp at hj
      | succ j => simp at hj
    · intro _
      rw [hstep]
      refine ⟨rfl, ?_⟩
      intro j
      cases j with
      | zero => simp
      | succ j => simp

/-- Witness for `C2_mark_after_send`: worker 3 processes an `INSERT` change
for table id 0 (`USERS`, primary key `ID`) whose sender call returns
`true`; the mark event sits at position 1, after the sender return at
position 0. -/
theorem C2_witness :
    ((⟨1, 100, 0, "INSERT", 0, false⟩ : Change).mutation = "INSERT" ∨
      (⟨1, 100, 0, "INSERT", 0, false⟩ : Change).mutation = "UPDATE" ∨
      (⟨1, 100, 0, "INSERT", 0, false⟩ : Change).mutation = "DELETE") ∧
    ((begin_read_step [(0, "USERS")] [("USERS", "ID")] (.returned true) 3
        [⟨1, 100, 0, "INSERT", 0, false⟩] ⟨1, 100, 0, "INSERT", 0, false⟩).1 =
      markProcessed [⟨1, 100, 0, "INSERT", 0, false⟩] 1 ∧
      ∃ (i : Nat) (b : Bool), i < 1 ∧
        (begin_read_step [(0, "USERS")] [("USERS", "ID")] (.returned true) 3
          [⟨1, 100, 0, "INSERT", 0, false⟩] ⟨1, 100, 0, "INSERT", 0, false⟩).2[i]? =
          some (WorkerEvent.senderReturned 1 b)) :=
  ⟨Or.inl rfl,
    (C2_mark_after_send [(0, "USERS")] [("USERS", "ID")] (fun _ => .returned true) 3
      [⟨1, 100, 0, "INSERT", 0, false⟩] ⟨1, 100, 0, "INSERT", 0, false⟩ [none]
      (Or.inl rfl)).2.1 1 rfl⟩

/-! ## Association-list and map-construction lemmas (C3) -/

theorem dictInsert_fresh {α β : Type} [BEq α] [LawfulBEq α]
    (m : List (α × β)) (k : α) (v : β) (h : ∀ p ∈ m, p.1 ≠ k) :
    dictInsert m k v = m ++ [(k, v)] := by
  have hany : m.any (fun p => p.1 == k) = false := by
    rw [List.any_eq_false]
    intro p hp
    simpa using h p hp
  rw [dictInsert, hany]
  simp

theorem lookup_cons_ne {α β : Type} [BEq α] [LawfulBEq α]
    {a k : α} (h : a ≠ k) (v : β) (l : List (α × β)) :
    List.lookup a ((k, v) :: l) = List.lookup a l := by
  rw [List.lookup_cons]
  have hb : (a == k) = false := by simpa using h
  rw [hb]

theorem lookup_pair_mem {α β : Type} [BEq α] [LawfulBEq α]
    {l : List (α × β)} {k : α} {v : β} (h : List.lookup k l = some v) :
    (k, v) ∈ l := by
  obtain ⟨l₁, l₂, rfl, -⟩ := List.lookup_eq_some_iff.mp h
  exact List.mem_append.mpr (Or.inr (List.mem_cons_self _ _))

/-- Mutual inverse of a duplicate-free association list zipping names with
consecutive ids and its flipped counterpart. -/
theorem lookup_zip_range_iff :
    ∀ (names : List String), names.Nodup →
      ∀ (s : Nat) (t : String) (i : Nat),
        (List.lookup t (names.zip (List.range' s names.length)) = some i ↔
          List.lookup i ((List.range' s names.length).zip names) = some t) := by
  intro names
  induction names with
  | nil => intro _ s t i; simp
  | cons n rest ih =>
    intro hU s t i
    obtain ⟨hn, hrestU⟩ := List.nodup_cons.mp hU
    rw [List.length_cons, List.range'_succ, List.zip_cons_cons, List.zip_cons_cons]
    by_cases ht : t = n
    · by_cases hi : i = s
      · subst ht; subst hi
        rw [List.lookup_cons_self, List.lookup_cons_self]
        simp
      · subst ht
        rw [List.lookup_cons_self, lookup_cons_ne hi]
        constructor
        · intro h
          exact absurd (Option.some.inj h).symm hi
        · intro h
          exact absurd (List.of_mem_zip (lookup_pair_mem h)).2 hn
    · by_cases hi : i = s
      · subst hi
        rw [lookup_cons_ne ht, List.lookup_cons_self]
        constructor
        · intro h
          have hmem := (List.of_mem_zip (lookup_pair_mem h)).2
          have := (List.mem_range'_1.mp hmem).1
          omega
        · intro h
          exact absurd (Option.some.inj h).symm ht
      · rw [lookup_cons_ne ht, lookup_cons_ne hi]
        exact ih hrestU (s + 1) t i

/-- When no trigger creation fails, the loop of `create_table_triggers`
extends its accumulators with the eligible tables paired with the
consecutive ids from `id` on. -/
theorem create_table_triggers_go_clean (fails : String → Bool) :
    ∀ (pks : List (String × String)), (eligibleTables pks).Nodup →
      (∀ t ∈ eligibleTables pks, fails t = false) →
      ∀ (id : Nat) (t2i : List (String × Nat)) (i2t : List (Nat × String)),
        (∀ t ∈ eligibleTables pks, ∀ p ∈ t2i, p.1 ≠ t) →
        (∀ p ∈ i2t, p.1 < id) →
        create_table_triggers_go fails pks id t2i i2t =
          (t2i ++ (eligibleTables pks).zip (List.range' id (eligibleTables pks).length),
            i2t ++ (List.range' id (eligibleTables pks).length).zip (eligibleTables pks)) := by
  intro pks
  induction pks with
  | nil =>
    intro _ _ id t2i i2t _ _
    simp [create_table_triggers_go, eligibleTables]
  | cons hd rest ih =>
    obtain ⟨table, pk⟩ := hd
    intro hU hfail id t2i i2t hfresh hlt
    by_cases hcl : table = "CHANGES_LOG"
    · have helig : eligibleTables ((table, pk) :: rest) = eligibleTables rest := by
        simp [eligibleTables, hcl]
      rw [helig] at hU hfail hfresh ⊢
      simp only [create_table_triggers_go]
      rw [if_pos hcl]
      exact ih hU hfail id t2i i2t hfresh hlt
    · have helig : eligibleTables ((table, pk) :: rest) = table :: eligibleTables rest := by
        simp [eligibleTables, hcl]
      rw [helig] at hU hfail hfresh ⊢
      obtain ⟨hnotin, hrestU⟩ := List.nodup_cons.mp hU
      have htf : fails table = false := hfail table (List.mem_cons_self _ _)
      simp only [create_table_triggers_go]
      rw [if_neg hcl]
      rw [dictInsert_fresh t2i table id (hfresh table (List.mem_cons_self _ _))]
      rw [dictInsert_fresh i2t id table (fun p hp => Nat.ne_of_lt (hlt p hp))]
      rw [htf]
      simp only [Bool.false_eq_true, if_false]
      rw [ih hrestU (fun t ht => hfail t (List.mem_cons_of_mem _ ht)) (id + 1)
        (t2i ++ [(table, id)]) (i2t ++ [(id, table)]) ?hfresh ?hlt]
      case hfresh =>
        intro t ht p hp
        rcases List.mem_append.mp hp with hp | hp
        · exact hfresh t (List.mem_cons_of_mem _ ht) p hp
        · rcases List.mem_singleton.mp hp with rfl
          intro hcon
          have hcon' : table = t := hcon
          exact hnotin (hcon' ▸ ht)
      case hlt =>
        intro p hp
        rcases List.mem_append.mp hp with hp | hp
        · exact Nat.lt_succ_of_lt (hlt p hp)
        · rcases List.mem_singleton.mp hp with rfl
          exact Nat.lt_succ_self _
      rw [List.length_cons, List.range'_succ, List.zip_cons_cons, List.zip_cons_cons]
      simp [List.append_assoc]

/-! ## C3 -/

/-- Claim C3 is false of the code: `DatabaseManager.create_table_triggers`
(`database_manager.py:203-220`) records a table in both dicts *before*
attempting the trigger DDL and does not increment `id` when the DDL
raises, so a failed table is not absent from the maps.  With tables
`A` (whose trigger creation fails) and `B` (which succeeds), the run ends
with `table_to_id = {A: 0, B: 0}` and `id_to_table = {0: B}`: the failed
table `A` remains in `table_to_id`, and the maps are not mutually inverse
(`A ↦ 0 ↦ B`). -/
theorem C3_counterexample :
    List.lookup "A"
      (create_table_triggers (fun t => t == "A") [("A", "ID"), ("B", "ID")]).1 = some 0 ∧
    List.lookup 0
      (create_table_triggers (fun t => t == "A") [("A", "ID"), ("B", "ID")]).2 = some "B" ∧
    ¬ (∀ (t : String) (i : Nat),
        List.lookup t
          (create_table_triggers (fun t => t == "A") [("A", "ID"), ("B", "ID")]).1 = some i ↔
        List.lookup i
          (create_table_triggers (fun t => t == "A") [("A", "ID"), ("B", "ID")]).2 = some t) := by
  refine ⟨by decide, by decide, fun hinv => ?_⟩
  have h := (hinv "A" 0).mp (by decide)
  exact absurd h (by decide)

/-- C3, amended: in runs where no trigger creation fails, the two maps are
mutually inverse — `table_to_id` assigns the distinct consecutive ids
`0, 1, …` to the eligible tables in iteration order, and `id_to_table`
maps each id back to exactly that table.  In runs where some trigger
creation fails, the failed table is still recorded in `table_to_id` (and
transiently in `id_to_table`) at the current id without advancing it, so a
later table reuses the id and the maps need not be mutually inverse. -/
theorem C3_amended (fails : String → Bool) (pks : List (String × String))
    (hU : (eligibleTables pks).Nodup)
    (hok : ∀ t ∈ eligibleTables pks, fails t = false) :
    (create_table_triggers fails pks).1 =
      (eligibleTables pks).zip (List.range' 0 (eligibleTables pks).length) ∧
    (create_table_triggers fails pks).2 =
      (List.range' 0 (eligibleTables pks).length).zip (eligibleTables pks) ∧
    (∀ (t : String) (i : Nat),
      List.lookup t (create_table_triggers fails pks).1 = some i ↔
        List.lookup i (create_table_triggers fails pks).2 = some t) := by
  have hgo := create_table_triggers_go_clean fails pks hU hok 0 [] []
    (by intro t _ p hp; simp at hp) (by intro p hp; simp at hp)
  refine ⟨?_, ?_, ?_⟩
  · rw [create_table_triggers, hgo]
    simp only [List.nil_append]
  · rw [create_table_triggers, hgo]
    simp only [List.nil_append]
  · intro t i
    rw [create_table_triggers, hgo]
    simp only [List.nil_append]
    exact lookup_zip_range_iff (eligibleTables pks) hU 0 t i

/-- Witness for `C3_amended`: two eligible tables, no failures. -/
theorem C3_witness :
    (eligibleTables [("A", "ID"), ("B", "PK")]).Nodup ∧
    (∀ t ∈ eligibleTables [("A", "ID"), ("B", "PK")], (fun _ : String => false) t = false) ∧
    (create_table_triggers (fun _ => false) [("A", "ID"), ("B", "PK")]).1 =
      (eligibleTables [("A", "ID"), ("B", "PK")]).zip
        (List.range' 0 (eligibleTables [("A", "ID"), ("B", "PK")]).length) ∧
    (List.lookup "B" (create_table_triggers (fun _ => false) [("A", "ID"), ("B", "PK")]).1 =
        some 1 ↔
      List.lookup 1 (create_table_triggers (fun _ => false) [("A", "ID"), ("B", "PK")]).2 =
        some "B") :=
  ⟨by decide, by decide,
    (C3_amended (fun _ => false) [("A", "ID"), ("B", "PK")] (by decide) (by decide)).1,
    (C3_amended (fun _ => false) [("A", "ID"), ("B", "PK")] (by decide) (by decide)).2.2
      "B" 1⟩

end Apis
